import Mathlib

/-! Verification of the macOS Mach-port IPC transport
(`src/platform/macos/mod.rs`).

Process memory is modelled as a total function `Nat → Nat` from byte
addresses to byte values; raw pointer writes become `store` and 32-bit
field reads become `loadU32` (the machine is little-endian).  Kernel
calls are modelled by oracles giving their return codes and the buffer
contents they deliver; the kernel's transport of a message is modelled
as the identity on the message bytes.  Traces of allocation, ownership
and kernel events make the resource-management behaviour of each
operation visible to the theorems. -/

namespace IpcMacos

/-- `SMALL_MESSAGE_SIZE` (mod.rs line 26): stack receive buffer size. -/
def SMALL_MESSAGE_SIZE : Nat := 4096

/-- Bootstrap and kernel status codes (mod.rs lines 31-52). -/
def BOOTSTRAP_SUCCESS : Int := 0

def BOOTSTRAP_NAME_IN_USE : Int := 1101

def KERN_SUCCESS : Int := 0

def KERN_INVALID_RIGHT : Int := 17

def MACH_MSG_PORT_DESCRIPTOR : Nat := 0

def MACH_MSG_SUCCESS : Int := 0

def MACH_MSG_TYPE_MOVE_RECEIVE : Nat := 16

def MACH_MSG_TYPE_COPY_SEND : Nat := 19

def MACH_MSGH_BITS_COMPLEX : Nat := 0x80000000

def MACH_PORT_NULL : Nat := 0

def MACH_PORT_RIGHT_RECEIVE : Nat := 1

def MACH_PORT_RIGHT_SEND : Nat := 0

def MACH_RCV_TOO_LARGE : Int := 0x10004004

/-- Modelled from the spec: the C structs live in the `mach_sys` module,
which is not under `src/`.  `mach_msg_header_t` is the fixed Mach message
header — six 4-byte fields (bits, size, remote port, local port,
reserved, id). -/
def sizeOfMachMsgHeader : Nat := 24

/-- Modelled from the spec: `mach_msg_body_t` holds the 4-byte descriptor
count. -/
def sizeOfMachMsgBody : Nat := 4

/-- `mem::size_of::<Message>()`: the `repr(C)` struct `Message` is the
header followed by the body, with no padding. -/
def sizeOfMessage : Nat := sizeOfMachMsgHeader + sizeOfMachMsgBody

/-- Modelled from the spec: `mach_msg_port_descriptor_t` — "port name,
padding, disposition tag, type tag": name (4 bytes at offset 0),
pad1 (4 bytes at offset 4), pad2 (2 bytes at offset 8), disposition
(1 byte at offset 10), type (1 byte at offset 11). -/
def sizeOfPortDescriptor : Nat := 12

/-- `Message::size_of` (mod.rs lines 505-515).  On natural values the
bit operations of the source read `size & 0x3 = size % 4` and
`size & !0x3 = size - size % 4`. -/
def Message.size_of (data_length : Nat) (port_length : Nat) : Nat :=
  let size := sizeOfMessage + sizeOfPortDescriptor * port_length + data_length
  if size % 4 ≠ 0 then (size - size % 4) + 4 else size

/-- Stated from the spec's words: "rounded up to the next multiple of
4". -/
def roundUpTo4 (n : Nat) : Nat := ((n + 3) / 4) * 4

/-- The little-endian bytes of a 32-bit store of `x`. -/
def u32LE (x : Nat) : List Nat :=
  [x % 256, x / 256 % 256, x / 65536 % 256, x / 16777216 % 256]

/-- Write the byte list `bs` at offset `off`. -/
def store (m : Nat → Nat) (off : Nat) (bs : List Nat) : Nat → Nat :=
  fun a => if off ≤ a ∧ a < off + bs.length then bs.getD (a - off) 0 else m a

/-- Read a little-endian 32-bit field at offset `off`. -/
def loadU32 (m : Nat → Nat) (off : Nat) : Nat :=
  m off + 256 * m (off + 1) + 65536 * m (off + 2) + 16777216 * m (off + 3)

/-- `MachChannel` (mod.rs lines 321-324): an owned, to-be-transmitted
endpoint, carrying its port name. -/
inductive MachChannel where
  | sender (port : Nat)
  | receiver (port : Nat)

/-- `MachChannel::port` (mod.rs lines 327-332). -/
def MachChannel.port : MachChannel → Nat
  | .sender p => p
  | .receiver p => p

/-- The disposition tag chosen per outgoing channel in `MachSender::send`
(mod.rs lines 283-286): a copied send right for a `Sender`, a moved
receive right for a `Receiver`. -/
def MachChannel.disposition : MachChannel → Nat
  | .sender _ => MACH_MSG_TYPE_COPY_SEND
  | .receiver _ => MACH_MSG_TYPE_MOVE_RECEIVE

/-- One iteration of the descriptor loop in `MachSender::send`
(mod.rs lines 278-291): write `name`, `pad1 = 0`, `disposition` and
`type_ = MACH_MSG_PORT_DESCRIPTOR` of one `mach_msg_port_descriptor_t`
at offset `off` (`pad2`, bytes 8-9, is left unwritten by the source). -/
def writeDescriptor (m : Nat → Nat) (off : Nat) (c : MachChannel) : Nat → Nat :=
  store (store (store (store m off (u32LE c.port))
      (off + 4) (u32LE 0))
      (off + 10) [c.disposition])
      (off + 11) [MACH_MSG_PORT_DESCRIPTOR]

/-- The whole descriptor loop, advancing `port_descriptor_dest` by one
descriptor (12 bytes) per outgoing channel. -/
def writeDescriptors (m : Nat → Nat) (off : Nat) : List MachChannel → (Nat → Nat)
  | [] => m
  | c :: rest => writeDescriptors (writeDescriptor m off c) (off + 12) rest

/-- The message buffer built by `MachSender::send` (mod.rs lines
265-303) before the `mach_msg` call: `malloc` yields a buffer with
arbitrary contents `junk`; the header fields, the body's descriptor
count, the descriptor array, the zeroed final word and the payload are
then written in the source's order.  Returns the computed size and the
final buffer contents. -/
def sendBuffer (selfPort : Nat) (data : List Nat) (ports : List MachChannel)
    (junk : Nat → Nat) : Nat × (Nat → Nat) :=
  let size := Message.size_of data.length ports.length
  let m0 := junk
  -- (*message).header.msgh_bits = COPY_SEND | COMPLEX
  let m1 := store m0 0 (u32LE (MACH_MSG_TYPE_COPY_SEND ||| MACH_MSGH_BITS_COMPLEX))
  -- (*message).header.msgh_size = size as u32
  let m2 := store m1 4 (u32LE size)
  -- (*message).header.msgh_local_port = MACH_PORT_NULL
  let m3 := store m2 12 (u32LE MACH_PORT_NULL)
  -- (*message).header.msgh_remote_port = self.port
  let m4 := store m3 8 (u32LE selfPort)
  -- (*message).header.msgh_reserved = 0
  let m5 := store m4 16 (u32LE 0)
  -- (*message).header.msgh_id = 0
  let m6 := store m5 20 (u32LE 0)
  -- (*message).body.msgh_descriptor_count = ports.len() as u32
  let m7 := store m6 24 (u32LE ports.length)
  -- descriptor loop, starting at message.offset(1)
  let m8 := writeDescriptors m7 sizeOfMessage ports
  -- "Zero out the last word for paranoia's sake."
  let m9 := store m8 (size - 4) (u32LE 0)
  -- ptr::copy_nonoverlapping(data, data_dest, data.len())
  let m10 := store m9 (sizeOfMessage + sizeOfPortDescriptor * ports.length) data
  (size, m10)

/-- The result of parsing a received message. -/
structure RecvOut where
  localPort : Nat
  payload : List Nat
  portNames : List Nat
deriving DecidableEq

/-- The parse phase of `recv` (mod.rs lines 440-456): read the
descriptor count from the body, walk the descriptor array collecting one
port name per descriptor (`OpaqueMachChannel::from_name` keeps only the
`name` field), then read `payload_size = msgh_size - (end of the
descriptor array)` payload bytes (a `usize` subtraction; for every
message produced by `send`, `msgh_size` is at least the descriptor-array
end, so the truncated `Nat` subtraction agrees with the source), and the
header's `msgh_local_port`. -/
def recvParse (m : Nat → Nat) : RecvOut :=
  { localPort := loadU32 m 12
    payload :=
      (List.range (loadU32 m 4 - (sizeOfMessage + sizeOfPortDescriptor * loadU32 m 24))).map
        fun i => m (sizeOfMessage + sizeOfPortDescriptor * loadU32 m 24 + i)
    portNames :=
      (List.range (loadU32 m 24)).map
        fun i => loadU32 m (sizeOfMessage + sizeOfPortDescriptor * i) }

/-- Observable resource events: heap allocation and release, `mach_msg`
calls (with the receive/send size passed), `mem::forget` of an outgoing
channel, `mach_port_mod_refs` refcount adjustments, and
`mach_port_move_member`. -/
inductive Event where
  | alloc (size : Nat)
  | free
  | machMsg (size : Nat)
  | forget (port : Nat)
  | modRefs (port : Nat) (right : Nat) (delta : Int)
  | moveMember (port : Nat) (setPort : Nat)
deriving DecidableEq

def machMsgCount (t : List Event) : Nat :=
  (t.filter fun e => match e with
    | .machMsg _ => true
    | _ => false).length

def forgottenPorts (t : List Event) : List Nat :=
  t.filterMap fun e => match e with
    | .forget p => some p
    | _ => none

def modRefsEvents (t : List Event) : List Event :=
  t.filter fun e => match e with
    | .modRefs _ _ _ => true
    | _ => false

/-- `MachSender::send` (mod.rs lines 265-318) with the `mach_msg` return
code as an oracle: `malloc` the computed size, populate the buffer
(`sendBuffer`), `mem::forget` each outgoing channel inside the
descriptor loop, invoke `mach_msg`, and free the buffer only after a
successful send — a non-success code returns `Err` before the
`libc::free`. -/
def sendModel (selfPort : Nat) (data : List Nat) (ports : List MachChannel)
    (junk : Nat → Nat) (osResult : Int) : Except Int Unit × List Event :=
  let size := (sendBuffer selfPort data ports junk).1
  let trace := [Event.alloc size] ++ ports.map (fun c => Event.forget c.port) ++
    [Event.machMsg size]
  if osResult ≠ MACH_MSG_SUCCESS then (Except.error osResult, trace)
  else (Except.ok (), trace ++ [Event.free])

/-- Oracle for the two possible `mach_msg` receive calls in `recv`:
each attempt's return code and the buffer contents it leaves behind (on
`MACH_RCV_TOO_LARGE` the kernel stores the needed size in the buffer's
`msgh_size` field; on success the buffer holds the message). -/
structure RecvOracle where
  firstResult : Int
  firstMem : Nat → Nat
  secondResult : Int
  secondMem : Nat → Nat

/-- `recv` (mod.rs lines 401-458).  The outer `allocated_buffer` binding
of line 406 is immutable and bound to `None`; the
`let allocated_buffer = Some(libc::malloc(..))` of line 419 introduces a
new binding that shadows it inside the match arm (modelled here as the
distinct local `_allocatedRetry`), so the `if let Some(allocated_buffer)
= allocated_buffer { libc::free(..) }` of lines 452-454 still inspects
the outer `None`. -/
def recvModel (port : Nat) (o : RecvOracle) : Except Int RecvOut × List Event :=
  let allocatedBuffer : Option Nat := none
  let t0 := [Event.machMsg SMALL_MESSAGE_SIZE]
  if o.firstResult = MACH_RCV_TOO_LARGE then
    -- "For some reason the size reported by the kernel is too small by 8."
    let actualSize := loadU32 o.firstMem 4 + 8
    let _allocatedRetry : Option Nat := some actualSize
    let t1 := t0 ++ [Event.alloc actualSize, Event.machMsg actualSize]
    if o.secondResult = MACH_MSG_SUCCESS then
      (Except.ok (recvParse o.secondMem),
       t1 ++ (match allocatedBuffer with
         | some _ => [Event.free]
         | none => []))
    else (Except.error o.secondResult, t1)
  else if o.firstResult = MACH_MSG_SUCCESS then
    (Except.ok (recvParse o.firstMem),
     t0 ++ (match allocatedBuffer with
       | some _ => [Event.free]
       | none => []))
  else (Except.error o.firstResult, t0)

/-- A concrete oracle: the first receive reports `MACH_RCV_TOO_LARGE`
(reported size 0, hence retry size 8) and the retry succeeds, delivering
an all-zero buffer. -/
def tooLargeThenOk : RecvOracle where
  firstResult := MACH_RCV_TOO_LARGE
  firstMem := fun _ => 0
  secondResult := MACH_MSG_SUCCESS
  secondMem := fun _ => 0

/-- A concrete oracle: both receive attempts report
`MACH_RCV_TOO_LARGE`. -/
def tooLargeTwice : RecvOracle where
  firstResult := MACH_RCV_TOO_LARGE
  firstMem := fun _ => 0
  secondResult := MACH_RCV_TOO_LARGE
  secondMem := fun _ => 0

/-- `MachReceiver` (mod.rs lines 63-66): a `Cell`-held port name. -/
structure MachReceiver where
  port : Nat
deriving DecidableEq

/-- `MachReceiver::consume_port` + `consume` (mod.rs lines 101-110): the
cell is set to `MACH_PORT_NULL` and the old name is wrapped in a fresh
receiver.  Returns (the original receiver's state after the call, the
new receiver). -/
def MachReceiver.consume (r : MachReceiver) : MachReceiver × MachReceiver :=
  ({ port := MACH_PORT_NULL }, { port := r.port })

/-- `Drop for MachReceiver` (mod.rs lines 68-80): release the receive
right unless the port is null. -/
def MachReceiver.dropEvents (r : MachReceiver) : List Event :=
  if r.port ≠ MACH_PORT_NULL then
    [Event.modRefs r.port MACH_PORT_RIGHT_RECEIVE (-1)]
  else []

/-- `Drop for MachSender` (mod.rs lines 207-221): decrement the
send-right refcount by one; `KERN_INVALID_RIGHT` ("the receiver already
shut down") is tolerated, any other non-success code panics.  Returns
the trace and whether the destructor panics. -/
def senderDrop (port : Nat) (osResult : Int) : List Event × Bool :=
  ([Event.modRefs port MACH_PORT_RIGHT_SEND (-1)],
   !(osResult == KERN_SUCCESS) && !(osResult == KERN_INVALID_RIGHT))

/-- `MachReceiverSet::add` (mod.rs lines 384-394): `consume_port` nulls
the receiver's cell first, then `mach_port_move_member` is invoked with
the saved name; on success the name is returned as the `i64` id.
Returns (result, the receiver's state after the call, trace). -/
def receiverSetAdd (r : MachReceiver) (setPort : Nat) (osResult : Int) :
    Except Int Int × MachReceiver × List Event :=
  let receiverPort := r.port
  let rAfter : MachReceiver := { port := MACH_PORT_NULL }
  let trace := [Event.moveMember receiverPort setPort]
  if osResult = KERN_SUCCESS then ((Except.ok (receiverPort : Int)), rAfter, trace)
  else (Except.error osResult, rAfter, trace)

/-- The registration loop of `MachReceiver::register_bootstrap_name`
(mod.rs lines 156-169): `attempts` pairs each generated random name
(modelled by the random number) with the registry's response to
`bootstrap_register2`, in order.  `BOOTSTRAP_NAME_IN_USE` continues the
loop; any other non-success response returns `Err`; success breaks and
returns the name.  `none` models the loop still running (every response
so far was "name in use"). -/
def registerLoop : List (Nat × Int) → Option (Except Int Nat)
  | [] => none
  | (nm, res) :: rest =>
      if res = BOOTSTRAP_NAME_IN_USE then registerLoop rest
      else if res ≠ BOOTSTRAP_SUCCESS then some (Except.error res)
      else some (Except.ok nm)

/-- `MachReceiver::register_bootstrap_name` (mod.rs lines 131-172):
`bootRes` and `extractRes` are the results of the preliminary
`task_get_special_port` and `mach_port_extract_right` calls. -/
def registerBootstrapName (bootRes : Int) (extractRes : Int)
    (attempts : List (Nat × Int)) : Option (Except Int Nat) :=
  if bootRes ≠ KERN_SUCCESS then some (Except.error bootRes)
  else if extractRes ≠ KERN_SUCCESS then some (Except.error extractRes)
  else registerLoop attempts

/-! ## Theorems -/

theorem sizeOfMessage_eq : sizeOfMessage = 28 := rfl

theorem sizeOfPortDescriptor_eq : sizeOfPortDescriptor = 12 := rfl

theorem u32LE_length (x : Nat) : (u32LE x).length = 4 := rfl

theorem store_out (m : Nat → Nat) (off : Nat) (bs : List Nat) (a : Nat)
    (h : a < off ∨ off + bs.length ≤ a) : store m off bs a = m a := by
  simp only [store]
  split
  · exfalso
    omega
  · rfl

theorem store_getD (m : Nat → Nat) (off : Nat) (bs : List Nat) (a : Nat)
    (h1 : off ≤ a) (h2 : a < off + bs.length) :
    store m off bs a = bs.getD (a - off) 0 := by
  simp only [store]
  split
  · rfl
  · exfalso
    omega

theorem loadU32_store_out (m : Nat → Nat) (off : Nat) (bs : List Nat) (a : Nat)
    (h : a + 4 ≤ off ∨ off + bs.length ≤ a) :
    loadU32 (store m off bs) a = loadU32 m a := by
  unfold loadU32
  rw [store_out, store_out, store_out, store_out] <;> omega

theorem loadU32_store_u32LE (m : Nat → Nat) (off : Nat) (x : Nat) :
    loadU32 (store m off (u32LE x)) off = x % 4294967296 := by
  unfold loadU32
  rw [store_getD, store_getD, store_getD, store_getD]
  · simp only [u32LE, Nat.sub_self, Nat.add_sub_cancel_left, List.getD_cons_zero,
      List.getD_cons_succ]
    omega
  all_goals first
    | omega
    | (simp only [u32LE_length]; omega)

theorem u32LE_zero_getD (k : Nat) : (u32LE 0).getD k 0 = 0 := by
  match k with
  | 0 => rfl
  | 1 => rfl
  | 2 => rfl
  | 3 => rfl
  | n + 4 =>
      show List.getD [] n 0 = 0
      simp [List.getD]

theorem writeDescriptor_out (m : Nat → Nat) (off : Nat) (c : MachChannel) (a : Nat)
    (h : a < off ∨ off + 12 ≤ a) : writeDescriptor m off c a = m a := by
  unfold writeDescriptor
  rw [store_out, store_out, store_out, store_out]
  all_goals first
    | omega
    | (simp only [u32LE_length, List.length_cons, List.length_nil]; omega)

theorem writeDescriptors_out (ports : List MachChannel) (m : Nat → Nat)
    (off : Nat) (a : Nat) (h : a < off ∨ off + 12 * ports.length ≤ a) :
    writeDescriptors m off ports a = m a := by
  induction ports generalizing m off with
  | nil => rfl
  | cons c rest ih =>
      simp only [List.length_cons] at h
      have h12 : a < off + 12 ∨ off + 12 + 12 * rest.length ≤ a := by omega
      simp only [writeDescriptors]
      rw [ih _ _ h12]
      rw [writeDescriptor_out]
      omega

theorem loadU32_writeDescriptor_out (m : Nat → Nat) (off : Nat) (c : MachChannel)
    (a : Nat) (h : a + 4 ≤ off ∨ off + 12 ≤ a) :
    loadU32 (writeDescriptor m off c) a = loadU32 m a := by
  unfold loadU32
  rw [writeDescriptor_out, writeDescriptor_out, writeDescriptor_out,
    writeDescriptor_out] <;> omega

theorem loadU32_writeDescriptors_out (ports : List MachChannel) (m : Nat → Nat)
    (off : Nat) (a : Nat) (h : a + 4 ≤ off ∨ off + 12 * ports.length ≤ a) :
    loadU32 (writeDescriptors m off ports) a = loadU32 m a := by
  unfold loadU32
  rw [writeDescriptors_out, writeDescriptors_out, writeDescriptors_out,
    writeDescriptors_out] <;> omega

/-- The `name` field written for the `i`-th outgoing channel is its port
name, truncated to the 32-bit field. -/
theorem loadU32_writeDescriptors_name (ports : List MachChannel) (m : Nat → Nat)
    (off : Nat) (i : Nat) (h : i < ports.length) :
    loadU32 (writeDescriptors m off ports) (off + 12 * i) =
      (ports.getD i (MachChannel.sender 0)).port % 4294967296 := by
  induction ports generalizing m off i with
  | nil => simp at h
  | cons c rest ih =>
      cases i with
      | zero =>
          simp only [writeDescriptors, Nat.mul_zero, Nat.add_zero, List.getD_cons_zero]
          rw [loadU32_writeDescriptors_out]
          · unfold writeDescriptor
            rw [loadU32_store_out, loadU32_store_out, loadU32_store_out]
            · exact loadU32_store_u32LE m off c.port
            all_goals first
              | omega
              | (simp only [u32LE_length, List.length_cons, List.length_nil]; omega)
          · omega
      | succ j =>
          simp only [List.length_cons] at h
          have hj : j < rest.length := by omega
          simp only [writeDescriptors, List.getD_cons_succ]
          have ha : off + 12 * (j + 1) = off + 12 + 12 * j := by ring
          rw [ha]
          exact ih _ _ _ hj

/-- The `disposition` byte written for the `i`-th outgoing channel. -/
theorem writeDescriptors_disposition (ports : List MachChannel) (m : Nat → Nat)
    (off : Nat) (i : Nat) (h : i < ports.length) :
    writeDescriptors m off ports (off + 12 * i + 10) =
      (ports.getD i (MachChannel.sender 0)).disposition := by
  induction ports generalizing m off i with
  | nil => simp at h
  | cons c rest ih =>
      cases i with
      | zero =>
          simp only [writeDescriptors, Nat.mul_zero, Nat.add_zero, List.getD_cons_zero]
          rw [writeDescriptors_out]
          · unfold writeDescriptor
            rw [store_out]
            · rw [store_getD]
              · simp only [Nat.sub_self, List.getD_cons_zero]
              · omega
              · simp only [List.length_cons, List.length_nil]
                omega
            · simp only [List.length_cons, List.length_nil]
              omega
          · omega
      | succ j =>
          simp only [List.length_cons] at h
          have hj : j < rest.length := by omega
          simp only [writeDescriptors, List.getD_cons_succ]
          have ha : off + 12 * (j + 1) + 10 = off + 12 + 12 * j + 10 := by ring
          rw [ha]
          exact ih _ _ _ hj

theorem size_of_bounds (d p : Nat) :
    28 + 12 * p + d ≤ Message.size_of d p ∧
    Message.size_of d p < 28 + 12 * p + d + 4 ∧
    Message.size_of d p % 4 = 0 := by
  by_cases h : (28 + 12 * p + d) % 4 = 0 <;>
    simp [Message.size_of, sizeOfMessage_eq, sizeOfPortDescriptor_eq, h] <;>
    omega

/-- The `msgh_size` field of a message built by `send` reads back as the
computed (4-byte-rounded) size. -/
theorem sendBuffer_msgh_size (selfPort : Nat) (data : List Nat)
    (ports : List MachChannel) (junk : Nat → Nat)
    (hsz : Message.size_of data.length ports.length < 4294967296) :
    loadU32 (sendBuffer selfPort data ports junk).2 4 =
      Message.size_of data.length ports.length := by
  obtain ⟨hb1, hb2, hb4⟩ := size_of_bounds data.length ports.length
  simp only [sendBuffer, sizeOfMessage_eq, sizeOfPortDescriptor_eq]
  rw [loadU32_store_out, loadU32_store_out, loadU32_writeDescriptors_out,
    loadU32_store_out, loadU32_store_out, loadU32_store_out, loadU32_store_out,
    loadU32_store_out, loadU32_store_u32LE]
  · omega
  all_goals first
    | omega
    | (simp only [u32LE_length]; omega)

/-- The `msgh_descriptor_count` field of a message built by `send` reads
back as the number of outgoing channels. -/
theorem sendBuffer_descriptor_count (selfPort : Nat) (data : List Nat)
    (ports : List MachChannel) (junk : Nat → Nat)
    (hsz : Message.size_of data.length ports.length < 4294967296) :
    loadU32 (sendBuffer selfPort data ports junk).2 24 = ports.length := by
  obtain ⟨hb1, hb2, hb4⟩ := size_of_bounds data.length ports.length
  simp only [sendBuffer, sizeOfMessage_eq, sizeOfPortDescriptor_eq]
  by_cases h32 : 32 ≤ Message.size_of data.length ports.length
  · rw [loadU32_store_out, loadU32_store_out, loadU32_writeDescriptors_out,
      loadU32_store_u32LE]
    · omega
    all_goals first
      | omega
      | (simp only [u32LE_length]; omega)
  · -- then the message is exactly the bare header: no descriptors, no
    -- payload, and the zeroed last word is the descriptor-count word
    have hn : ports.length = 0 := by omega
    have hd : data.length = 0 := by omega
    have h28 : Message.size_of data.length ports.length - 4 = 24 := by omega
    rw [loadU32_store_out, h28, loadU32_store_u32LE]
    · omega
    · omega

/-- Helper: a within-bounds `getD` entry is a member of the list. -/
theorem getD_mem {α : Type} (l : List α) (d : α) (i : Nat) (h : i < l.length) :
    l.getD i d ∈ l := by
  rw [List.getD_eq_getElem l d h]
  exact List.getElem_mem h

/-- The `name` field of the `i`-th descriptor of a message built by
`send` reads back as the `i`-th outgoing channel's port name. -/
theorem sendBuffer_name (selfPort : Nat) (data : List Nat)
    (ports : List MachChannel) (junk : Nat → Nat) (i : Nat)
    (hi : i < ports.length)
    (hports : ∀ c ∈ ports, MachChannel.port c < 4294967296) :
    loadU32 (sendBuffer selfPort data ports junk).2 (28 + 12 * i) =
      (ports.getD i (MachChannel.sender 0)).port := by
  obtain ⟨hb1, hb2, hb4⟩ := size_of_bounds data.length ports.length
  simp only [sendBuffer, sizeOfMessage_eq, sizeOfPortDescriptor_eq]
  rw [loadU32_store_out, loadU32_store_out, loadU32_writeDescriptors_name _ _ _ _ hi]
  · exact Nat.mod_eq_of_lt (hports _ (getD_mem ports (MachChannel.sender 0) i hi))
  all_goals first
    | omega
    | (simp only [u32LE_length]; omega)

/-- A payload byte of a message built by `send` reads back unchanged. -/
theorem sendBuffer_payload_byte (selfPort : Nat) (data : List Nat)
    (ports : List MachChannel) (junk : Nat → Nat) (k : Nat)
    (hk : k < data.length) :
    (sendBuffer selfPort data ports junk).2 (28 + 12 * ports.length + k) =
      data.getD k 0 := by
  simp only [sendBuffer, sizeOfMessage_eq, sizeOfPortDescriptor_eq]
  rw [store_getD]
  · rw [Nat.add_sub_cancel_left]
  · omega
  · omega

/-- A padding byte — past the payload but below the rounded-up message
size — reads back as zero: the zeroing of the message's last word covers
the whole padding. -/
theorem sendBuffer_padding_byte (selfPort : Nat) (data : List Nat)
    (ports : List MachChannel) (junk : Nat → Nat) (k : Nat)
    (hk1 : data.length ≤ k)
    (hk2 : k < Message.size_of data.length ports.length - (28 + 12 * ports.length)) :
    (sendBuffer selfPort data ports junk).2 (28 + 12 * ports.length + k) = 0 := by
  obtain ⟨hb1, hb2, hb4⟩ := size_of_bounds data.length ports.length
  simp only [sendBuffer, sizeOfMessage_eq, sizeOfPortDescriptor_eq]
  rw [store_out, store_getD]
  · exact u32LE_zero_getD _
  · omega
  · simp only [u32LE_length]
    omega
  · omega

/-- The `disposition` byte of the `i`-th descriptor of a message built
by `send`, provided the payload is nonempty (for an empty payload the
zeroing of the last word overlaps the final descriptor). -/
theorem sendBuffer_disposition (selfPort : Nat) (data : List Nat)
    (ports : List MachChannel) (junk : Nat → Nat) (i : Nat)
    (hi : i < ports.length) (hd : data.length ≠ 0) :
    (sendBuffer selfPort data ports junk).2 (28 + 12 * i + 10) =
      (ports.getD i (MachChannel.sender 0)).disposition := by
  obtain ⟨hb1, hb2, hb4⟩ := size_of_bounds data.length ports.length
  simp only [sendBuffer, sizeOfMessage_eq, sizeOfPortDescriptor_eq]
  rw [store_out, store_out, writeDescriptors_disposition _ _ _ _ hi]
  · simp only [u32LE_length]
    omega
  · omega

/-- C1 (amended): serializing with `Sender::send` and parsing with
`recv` yields exactly `len(e)` received channels, in the same order as
`e` and carrying the original port names; the payload read back is `p`
followed by `(4 - len(p) % 4) % 4` zero padding bytes (so `p` exactly
iff `len(p)` is a multiple of 4); and, provided `p` is nonempty, the
`i`-th wire descriptor's disposition tag reflects the original kind —
copied send right for a `Sender`, moved receive right for a `Receiver`.
(For an empty payload, `send`'s zeroing of the message's last word
overwrites the final descriptor's disposition byte.) -/
theorem send_recv_roundtrip_padded (selfPort : Nat) (data : List Nat)
    (ports : List MachChannel) (junk : Nat → Nat)
    (hsz : Message.size_of data.length ports.length < 4294967296)
    (hports : ∀ c ∈ ports, MachChannel.port c < 4294967296) :
    (recvParse (sendBuffer selfPort data ports junk).2).portNames =
      ports.map MachChannel.port ∧
    (recvParse (sendBuffer selfPort data ports junk).2).payload =
      data ++ List.replicate
        (Message.size_of data.length ports.length -
          (28 + 12 * ports.length + data.length)) 0 ∧
    (data.length ≠ 0 → ∀ i, i < ports.length →
      (sendBuffer selfPort data ports junk).2 (28 + 12 * i + 10) =
        MachChannel.disposition (ports.getD i (MachChannel.sender 0))) := by
  obtain ⟨hb1, hb2, hb4⟩ := size_of_bounds data.length ports.length
  have hsize := sendBuffer_msgh_size selfPort data ports junk hsz
  have hcount := sendBuffer_descriptor_count selfPort data ports junk hsz
  refine ⟨?_, ?_, ?_⟩
  · simp only [recvParse, sizeOfMessage_eq, sizeOfPortDescriptor_eq, hcount]
    apply List.ext_getElem
    · simp
    · intro i h1 h2
      simp only [List.getElem_map, List.getElem_range]
      have hi : i < ports.length := by simpa using h1
      rw [sendBuffer_name selfPort data ports junk i hi hports,
        List.getD_eq_getElem ports (MachChannel.sender 0) hi]
  · simp only [recvParse, sizeOfMessage_eq, sizeOfPortDescriptor_eq, hcount, hsize]
    apply List.ext_getElem
    · simp
      omega
    · intro k h1 h2
      simp only [List.getElem_map, List.getElem_range]
      have hk : k < Message.size_of data.length ports.length -
          (28 + 12 * ports.length) := by simpa using h1
      by_cases hklo : k < data.length
      · rw [sendBuffer_payload_byte selfPort data ports junk k hklo,
          List.getElem_append_left hklo,
          List.getD_eq_getElem data 0 hklo]
      · rw [sendBuffer_padding_byte selfPort data ports junk k (by omega) (by omega),
          List.getElem_append_right (by omega)]
        simp
  · intro hd i hi
    exact sendBuffer_disposition selfPort data ports junk i hi hd

/-- C1 counterexample: the claim "recv reproduces p exactly (same bytes,
same length)" fails at payload `[1]` with no channels: the parsed
payload is `[1, 0, 0, 0]` — the size arithmetic rounds the message up to
a 4-byte boundary and `recv` returns everything up to the declared
message size. -/
theorem send_recv_exact_roundtrip_fails :
    (recvParse (sendBuffer 4 [1] [] (fun _ => 0)).2).payload = [1, 0, 0, 0] ∧
    (recvParse (sendBuffer 4 [1] [] (fun _ => 0)).2).payload ≠ [1] := by
  constructor
  · decide
  · decide

/-- Closed instance of `send_recv_roundtrip_padded` at a concrete
payload and channel list. -/
theorem send_recv_roundtrip_padded_witness :
    (recvParse (sendBuffer 4 [1, 2, 3, 5]
        [MachChannel.sender 7, MachChannel.receiver 9] (fun _ => 3)).2).portNames =
      [MachChannel.sender 7, MachChannel.receiver 9].map MachChannel.port :=
  (send_recv_roundtrip_padded 4 [1, 2, 3, 5]
    [MachChannel.sender 7, MachChannel.receiver 9] (fun _ => 3)
    (by decide) (by decide)).1

theorem forgottenPorts_append (s t : List Event) :
    forgottenPorts (s ++ t) = forgottenPorts s ++ forgottenPorts t := by
  simp [forgottenPorts]

theorem modRefsEvents_append (s t : List Event) :
    modRefsEvents (s ++ t) = modRefsEvents s ++ modRefsEvents t := by
  simp [modRefsEvents]

theorem forgottenPorts_map_forget (l : List MachChannel) :
    forgottenPorts (l.map fun c => Event.forget c.port) = l.map MachChannel.port := by
  induction l with
  | nil => rfl
  | cons c rest ih =>
      simp only [List.map_cons, forgottenPorts, List.filterMap_cons] at ih ⊢
      rw [ih]

theorem modRefsEvents_map_forget (l : List MachChannel) :
    modRefsEvents (l.map fun c => Event.forget c.port) = [] := by
  induction l with
  | nil => rfl
  | cons c rest ih =>
      simp only [List.map_cons, modRefsEvents, List.filter_cons] at ih ⊢
      rw [ih]
      simp

/-- C5: `Sender::send` consumes ownership of every element of `ports`
unconditionally — in the descriptor loop each outgoing channel is
`mem::forget`-ten (in input order), whether the kernel send succeeds or
fails, and `send` itself never releases any right
(no `mach_port_mod_refs` call appears in it). -/
theorem send_consumes_all_ports (selfPort : Nat) (data : List Nat)
    (ports : List MachChannel) (junk : Nat → Nat) (osResult : Int) :
    forgottenPorts (sendModel selfPort data ports junk osResult).2 =
      ports.map MachChannel.port ∧
    modRefsEvents (sendModel selfPort data ports junk osResult).2 = [] := by
  by_cases h : osResult = MACH_MSG_SUCCESS <;>
    simp only [sendModel, h, if_pos, if_neg, ne_eq, not_true_eq_false, not_false_eq_true,
      ite_true, ite_false, if_false, if_true] <;>
    constructor <;>
    simp only [forgottenPorts_append, modRefsEvents_append, forgottenPorts_map_forget,
      modRefsEvents_map_forget] <;>
    simp [forgottenPorts, modRefsEvents]

/-- C10: in `Sender::send` the heap message buffer is freed only on the
success path — when `mach_msg` returns a non-success code, `send`
returns `Err(code)` and no `free` event occurs. -/
theorem send_failure_skips_free (selfPort : Nat) (data : List Nat)
    (ports : List MachChannel) (junk : Nat → Nat) (osResult : Int)
    (h : osResult ≠ MACH_MSG_SUCCESS) :
    (sendModel selfPort data ports junk osResult).1 = Except.error osResult ∧
    Event.free ∉ (sendModel selfPort data ports junk osResult).2 := by
  constructor
  · simp [sendModel, h]
  · simp [sendModel, h]

/-- Closed instance of `send_failure_skips_free` at kernel code 5. -/
theorem send_failure_skips_free_witness :
    (sendModel 4 [1] [] (fun _ => 0) 5).1 = Except.error 5 :=
  (send_failure_skips_free 4 [1] [] (fun _ => 0) 5 (by decide)).1

/-- C2: `recv` never frees the heap retry buffer, even on the success
path — the `if let Some(allocated_buffer)` cleanup inspects the outer
binding, which is immutably `None` (the `Some` introduced in the
too-large arm shadows it).  At an input whose first receive reports
`MACH_RCV_TOO_LARGE` and whose retry succeeds, the trace holds the
allocation but no free. -/
theorem recv_heap_buffer_never_freed :
    (recvModel 1 tooLargeThenOk).2 =
      [Event.machMsg 4096, Event.alloc 8, Event.machMsg 8] ∧
    Event.alloc 8 ∈ (recvModel 1 tooLargeThenOk).2 ∧
    Event.free ∉ (recvModel 1 tooLargeThenOk).2 := by
  refine ⟨by decide, by decide, by decide⟩

/-- C4: the receive is retried at most once.  Any oracle yields at most
two `mach_msg` calls; when the first attempt reports
`MACH_RCV_TOO_LARGE`, the single retry allocates and passes the
kernel-reported size plus the fixed `+ 8` correction, and any
non-success result of that retry — including a second
`MACH_RCV_TOO_LARGE` — is returned as the error with no further
`mach_msg` call. -/
theorem recv_retries_at_most_once (port : Nat) (o : RecvOracle)
    (h1 : o.firstResult = MACH_RCV_TOO_LARGE)
    (h2 : o.secondResult ≠ MACH_MSG_SUCCESS) :
    (∀ o2 : RecvOracle, machMsgCount (recvModel port o2).2 ≤ 2) ∧
    (recvModel port o).1 = Except.error o.secondResult ∧
    (recvModel port o).2 =
      [Event.machMsg SMALL_MESSAGE_SIZE,
       Event.alloc (loadU32 o.firstMem 4 + 8),
       Event.machMsg (loadU32 o.firstMem 4 + 8)] := by
  refine ⟨?_, ?_, ?_⟩
  · intro o2
    simp only [recvModel]
    by_cases ha : o2.firstResult = MACH_RCV_TOO_LARGE
    · rw [if_pos ha]
      by_cases hb : o2.secondResult = MACH_MSG_SUCCESS
      · rw [if_pos hb]
        simp [machMsgCount]
      · rw [if_neg hb]
        simp [machMsgCount]
    · rw [if_neg ha]
      by_cases hc : o2.firstResult = MACH_MSG_SUCCESS
      · rw [if_pos hc]
        simp [machMsgCount]
      · rw [if_neg hc]
        simp [machMsgCount]
  · simp [recvModel, h1, h2]
  · simp [recvModel, h1, h2]

/-- Closed instance of `recv_retries_at_most_once` where the retry
itself reports "too large" again. -/
theorem recv_retries_at_most_once_witness :
    (recvModel 1 tooLargeTwice).1 = Except.error MACH_RCV_TOO_LARGE :=
  (recv_retries_at_most_once 1 tooLargeTwice rfl (by decide)).2.1

/-- C6: `consume()` returns a new receiver holding the same port while
the original's cell becomes null; dropping the nulled original performs
no release, so across the consumed original and its replacement the
receive right is released exactly once. -/
theorem consume_releases_exactly_once (r : MachReceiver)
    (h : r.port ≠ MACH_PORT_NULL) :
    r.consume.1.port = MACH_PORT_NULL ∧
    r.consume.2.port = r.port ∧
    r.consume.1.dropEvents = [] ∧
    r.consume.1.dropEvents ++ r.consume.2.dropEvents =
      [Event.modRefs r.port MACH_PORT_RIGHT_RECEIVE (-1)] := by
  refine ⟨rfl, rfl, ?_, ?_⟩
  · simp [MachReceiver.consume, MachReceiver.dropEvents]
  · simp [MachReceiver.consume, MachReceiver.dropEvents, h]

/-- Closed instance of `consume_releases_exactly_once` at port 5. -/
theorem consume_releases_exactly_once_witness :
    (MachReceiver.mk 5).consume.1.dropEvents ++
        (MachReceiver.mk 5).consume.2.dropEvents =
      [Event.modRefs 5 MACH_PORT_RIGHT_RECEIVE (-1)] :=
  (consume_releases_exactly_once (MachReceiver.mk 5) (by decide)).2.2.2

/-- C7: dropping a `MachSender` decrements the send-right refcount by
one, and the destructor panics exactly when the kernel code is neither
success nor `KERN_INVALID_RIGHT` (the one benign code, meaning the
peer's receive right is already gone). -/
theorem sender_drop_tolerates_only_invalid_right (port : Nat) (osResult : Int) :
    (senderDrop port osResult).1 =
      [Event.modRefs port MACH_PORT_RIGHT_SEND (-1)] ∧
    ((senderDrop port osResult).2 = false ↔
      (osResult = KERN_SUCCESS ∨ osResult = KERN_INVALID_RIGHT)) := by
  refine ⟨rfl, ?_⟩
  by_cases h0 : osResult = KERN_SUCCESS <;>
    by_cases h17 : osResult = KERN_INVALID_RIGHT <;>
    simp [senderDrop, h0, h17]

/-- C8: the registration loop never surfaces `BOOTSTRAP_NAME_IN_USE`:
an error is returned only for registry codes other than "name in use"
(and other than success), and on success the returned name is the one
whose registration succeeded — the first attempt not answered "name in
use", every earlier attempt having been answered "name in use". -/
theorem register_never_surfaces_name_in_use (attempts : List (Nat × Int)) :
    (∀ e, registerBootstrapName 0 0 attempts = some (Except.error e) →
      e ≠ BOOTSTRAP_NAME_IN_USE ∧ e ≠ BOOTSTRAP_SUCCESS) ∧
    (∀ nm, registerBootstrapName 0 0 attempts = some (Except.ok nm) →
      ∃ i, i < attempts.length ∧
        attempts.getD i (0, 0) = (nm, BOOTSTRAP_SUCCESS) ∧
        ∀ j, j < i → (attempts.getD j (0, 0)).2 = BOOTSTRAP_NAME_IN_USE) := by
  have hmain : ∀ l : List (Nat × Int),
      (∀ e, registerLoop l = some (Except.error e) →
        e ≠ BOOTSTRAP_NAME_IN_USE ∧ e ≠ BOOTSTRAP_SUCCESS) ∧
      (∀ nm, registerLoop l = some (Except.ok nm) →
        ∃ i, i < l.length ∧ l.getD i (0, 0) = (nm, BOOTSTRAP_SUCCESS) ∧
          ∀ j, j < i → (l.getD j (0, 0)).2 = BOOTSTRAP_NAME_IN_USE) := by
    intro l
    induction l with
    | nil =>
        constructor <;> intro x hx <;> simp [registerLoop] at hx
    | cons p rest ih =>
        obtain ⟨nm0, res0⟩ := p
        obtain ⟨ihe, iho⟩ := ih
        constructor
        · intro e he
          simp only [registerLoop] at he
          by_cases hu : res0 = BOOTSTRAP_NAME_IN_USE
          · rw [if_pos hu] at he
            exact ihe e he
          · rw [if_neg hu] at he
            by_cases hs : res0 = BOOTSTRAP_SUCCESS
            · rw [if_neg (not_not_intro hs)] at he
              simp at he
            · rw [if_pos hs] at he
              simp only [Option.some.injEq, Except.error.injEq] at he
              subst he
              exact ⟨hu, hs⟩
        · intro nm hnm
          simp only [registerLoop] at hnm
          by_cases hu : res0 = BOOTSTRAP_NAME_IN_USE
          · rw [if_pos hu] at hnm
            obtain ⟨i, hi, hgi, hbefore⟩ := iho nm hnm
            refine ⟨i + 1, by simp only [List.length_cons]; omega,
              by simpa using hgi, ?_⟩
            intro j hj
            cases j with
            | zero => simpa using hu
            | succ k =>
                simp only [List.getD_cons_succ]
                exact hbefore k (by omega)
          · rw [if_neg hu] at hnm
            by_cases hs : res0 = BOOTSTRAP_SUCCESS
            · rw [if_neg (not_not_intro hs)] at hnm
              simp only [Option.some.injEq, Except.ok.injEq] at hnm
              refine ⟨0, by simp, ?_, by intro j hj; omega⟩
              simp [hnm, hs]
            · rw [if_pos hs] at hnm
              simp at hnm
  constructor
  · intro e he
    refine (hmain attempts).1 e ?_
    simpa [registerBootstrapName, KERN_SUCCESS] using he
  · intro nm hnm
    refine (hmain attempts).2 nm ?_
    simpa [registerBootstrapName, KERN_SUCCESS] using hnm

/-- Closed instance of `register_never_surfaces_name_in_use`: the first
name collides, the second registers. -/
theorem register_never_surfaces_name_in_use_witness :
    ∃ i, i < ([(7, 1101), (9, 0)] : List (Nat × Int)).length ∧
      ([(7, 1101), (9, 0)] : List (Nat × Int)).getD i (0, 0) =
        (9, BOOTSTRAP_SUCCESS) ∧
      ∀ j, j < i →
        (([(7, 1101), (9, 0)] : List (Nat × Int)).getD j (0, 0)).2 =
          BOOTSTRAP_NAME_IN_USE :=
  (register_never_surfaces_name_in_use [(7, 1101), (9, 0)]).2 9 rfl

/-- C9: `MachReceiverSet::add` nulls the receiver's cell (via
`consume_port`) before the `mach_port_move_member` call; on a kernel
failure it returns the error while the receiver is already null — its
destructor releases nothing and `add` itself performs no
`mach_port_mod_refs`, so the receive right is stranded. -/
theorem receiver_set_add_strands_right_on_failure (r : MachReceiver)
    (setPort : Nat) (osResult : Int) (h : osResult ≠ KERN_SUCCESS) :
    (receiverSetAdd r setPort osResult).1 = Except.error osResult ∧
    (receiverSetAdd r setPort osResult).2.1.port = MACH_PORT_NULL ∧
    (receiverSetAdd r setPort osResult).2.1.dropEvents = [] ∧
    (receiverSetAdd r setPort osResult).2.2 =
      [Event.moveMember r.port setPort] ∧
    modRefsEvents (receiverSetAdd r setPort osResult).2.2 = [] := by
  refine ⟨?_, ?_, ?_, ?_, ?_⟩ <;>
    simp [receiverSetAdd, h, MachReceiver.dropEvents, modRefsEvents]

/-- Closed instance of `receiver_set_add_strands_right_on_failure` at
port 5, set 9, kernel code 3. -/
theorem receiver_set_add_strands_right_on_failure_witness :
    (receiverSetAdd (MachReceiver.mk 5) 9 3).1 = Except.error 3 :=
  (receiver_set_add_strands_right_on_failure (MachReceiver.mk 5) 9 3 (by decide)).1

/-- C3: `Message::size_of(data_length, port_length)` equals the fixed
header size (`mach_msg_header_t` plus `mach_msg_body_t`) plus the
descriptor size times `port_length` plus `data_length`, rounded up to
the next multiple of 4 — hence it is always divisible by 4 and at least
the header size. -/
theorem size_of_matches_layout (d p : Nat) :
    Message.size_of d p =
      roundUpTo4 (sizeOfMachMsgHeader + sizeOfMachMsgBody +
        sizeOfPortDescriptor * p + d) ∧
    Message.size_of d p % 4 = 0 ∧
    sizeOfMachMsgHeader + sizeOfMachMsgBody ≤ Message.size_of d p := by
  refine ⟨?_, ?_, ?_⟩ <;>
    · simp only [Message.size_of, roundUpTo4, sizeOfMessage, sizeOfMachMsgHeader,
        sizeOfMachMsgBody, sizeOfPortDescriptor]
      split <;> omega

end IpcMacos
